import Mathlib

/-!
Shallow embedding of the SCD2 synchronization engine from
`2-etl-technical-test/etl` (`utils.py` and `main.py`).

A dataframe row is a positional list of values (`Vals`); the natural key is
column 0 and the three history columns (`effective_start_date`,
`effective_end_date`, `is_active`) are the last three columns, exactly the
positional conventions of `compare_tables` (`new_df.columns[1:-3]`).
A stored table row (`HistRow`) carries the surrogate key separately (the
`user_sk` column filled from the sequence) plus the same positional values.
-/

/-- A cell value of a dataframe or table column.  `null` stands for
NaN/None/NaT; timestamps are abstracted as naturals. -/
inductive Value where
  | null
  | int (n : Int)
  | str (s : String)
  | bool (b : Bool)
  | time (t : Nat)
deriving DecidableEq, Repr

abbrev Vals := List Value

/-- Elementwise pandas `Series.eq` semantics: a null on either side (including
both sides) compares as not-equal; non-null values compare structurally.
This is the comparison used by `compare_tables` via `merged[col].eq(merged[col_old])`. -/
def peq : Value → Value → Bool
  | .null, _ => false
  | _, .null => false
  | a, b => a == b

/-- Equality under the value semantics described by the spec (§4.1): a
null/absent value is a distinct value equal to itself.  This is the
spec-side notion, to be compared with the source's `peq`. -/
def value_sem_eq : Value → Value → Bool
  | .null, .null => true
  | a, b => a == b

/-- Natural key of a dataframe row: its first column. -/
def keyOf (r : Vals) : Value := r.headD .null

/-- A historized row of the target table: surrogate key plus the table's
column values in declared order (natural key first, the three history
columns last). -/
structure HistRow where
  sk : Int
  vals : Vals
deriving DecidableEq, Repr

def HistRow.key (r : HistRow) : Value := r.vals.headD .null

/-- `is_active` is the last declared column. -/
def HistRow.isActive (r : HistRow) : Bool := r.vals.getLastD .null == .bool true

/-- The target table: its rows in insertion order plus the current value of
the surrogate-key sequence. -/
structure Table where
  rows : List HistRow
  nextSk : Int
deriving DecidableEq, Repr

def dRow : HistRow := ⟨0, []⟩

/-- Number of active rows of the table carrying natural key `k`. -/
def countActive (t : Table) (k : Value) : Nat :=
  (t.rows.filter fun r => r.isActive && (r.key == k)).length

/-- Surrogate keys are drawn from the sequence: consecutive values starting
at the sequence's current value (`NEXTVAL` per inserted row). -/
def assignSks (sk : Int) : List Vals → List HistRow
  | [] => []
  | v :: vs => ⟨sk, v⟩ :: assignSks (sk + 1) vs

/-- `read_scd_table_in_olap`: `SELECT * ... WHERE is_active = 1`. -/
def read_scd_table_in_olap (t : Table) : List HistRow :=
  t.rows.filter (·.isActive)

/-- The expire `UPDATE`: set `effective_end_date` (second-to-last column) to
the current time and `is_active` (last column) to false. -/
def expireRow (now : Nat) (r : HistRow) : HistRow :=
  { r with vals := (r.vals.set (r.vals.length - 2) (.time now)).set (r.vals.length - 1) (.bool false) }

/-- `expiring_scd_table_in_olap`: one `UPDATE ... WHERE sk IN (...)` touching
exactly the rows whose surrogate key is listed. -/
def expiring_scd_table_in_olap (now : Nat) (sks : List Int) (t : Table) : Table :=
  { t with rows := t.rows.map fun r => if r.sk ∈ sks then expireRow now r else r }

/-- `inserting_scd_table_in_olap`: a prepared `INSERT` with one placeholder
per declared column (`n` of them); binding a record whose arity differs from
`n` raises, rolling the batch back.  On success the rows are appended with
fresh surrogate keys from the sequence. -/
def inserting_scd_table_in_olap (n : Nat) (data : List Vals) (t : Table) : Except Unit Table :=
  if data.all (fun r => r.length = n) then
    .ok { rows := t.rows ++ assignSks t.nextSk data, nextSk := t.nextSk + data.length }
  else
    .error ()

/-- The compared column positions `new_df.columns[1:-3]`: everything except
the natural key (position 0) and the three history columns (last three of
the `n` columns). -/
def comparePositions (n : Nat) : List Nat := (List.range (n - 4)).map (· + 1)

/-- A merged row with `_merge == 'both'`: the candidate row joined with one
active row of the same natural key (the `_old`-suffixed columns). -/
structure UpdRow where
  snap : Vals
  old : HistRow
deriving DecidableEq, Repr

/-- The `update_condition` of `compare_tables`: true when some compared
column differs under pandas `eq` semantics (`~merged[col].eq(merged[col_old])`). -/
def changedRow (n : Nat) (u : UpdRow) : Bool :=
  (comparePositions n).any fun i => !(peq (u.snap.getD i .null) (u.old.vals.getD i .null))

/-- The outer-merge key match: natural key of the candidate row equals the
natural key column of the stored row. -/
def keyMatches (l : Vals) (r : HistRow) : Bool := keyOf l == r.key

/-- `_merge == 'left_only'` projected back onto `new_df.columns`: candidate
rows whose key matches no active row. -/
def rows_to_insert (new_df : List Vals) (existing_df : List HistRow) : List Vals :=
  new_df.filter fun l => !(existing_df.any (keyMatches l))

/-- `_merge == 'right_only'`: active rows whose key matches no candidate row. -/
def deleted_rows (new_df : List Vals) (existing_df : List HistRow) : List HistRow :=
  existing_df.filter fun r => !(new_df.any fun l => keyMatches l r)

/-- The `_merge == 'both'` part of the outer join: every candidate row paired
with every active row of the same key. -/
def merged_both (new_df : List Vals) (existing_df : List HistRow) : List UpdRow :=
  new_df.flatMap fun l => (existing_df.filter (keyMatches l)).map fun r => ⟨l, r⟩

/-- `_merge == 'both'` rows where `update_condition` holds. -/
def rows_to_update (n : Nat) (new_df : List Vals) (existing_df : List HistRow) : List UpdRow :=
  (merged_both new_df existing_df).filter (changedRow n)

/-- `compare_tables(new_df, existing_df, natural_key)` for a dataframe of
`n` columns. -/
def compare_tables (n : Nat) (new_df : List Vals) (existing_df : List HistRow) :
    List Vals × List UpdRow × List HistRow :=
  (rows_to_insert new_df existing_df, rows_to_update n new_df existing_df,
    deleted_rows new_df existing_df)

/-- `rows_to_update.to_dict('records')`: the values of one merged row in
merged-column order — the candidate columns, then `user_sk`, then the
`_old`-suffixed active columns (all of them except the shared natural key),
then the `_merge` indicator. -/
def mergedRecord (u : UpdRow) : Vals :=
  u.snap ++ [Value.int u.old.sk] ++ u.old.vals.drop 1 ++ [Value.str "both"]

/-- The `if not rows_to_update.empty` block of the loaders: expire the old
surrogate keys, then re-insert the merged records through the `n`-column
insert.  A failed insert leaves the already-committed expirations in place
(each statement runs in its own transaction) and aborts the run. -/
def update_phase (n nowU : Nat) (upd : List UpdRow) (t : Table) : Table × Bool :=
  if upd.isEmpty then (t, true)
  else
    let t1 := expiring_scd_table_in_olap nowU (upd.map fun u => u.old.sk) t
    match inserting_scd_table_in_olap n (upd.map mergedRecord) t1 with
    | .ok t1' => (t1', true)
    | .error _ => (t1, false)

/-- The `if not deleted_rows.empty` block: expire the removed keys' rows. -/
def delete_phase (nowD : Nat) (del : List HistRow) (t : Table) : Table :=
  if del.isEmpty then t
  else expiring_scd_table_in_olap nowD (del.map (·.sk)) t

/-- The `if not rows_to_insert.empty` block: insert the fresh candidate rows. -/
def insert_phase (n : Nat) (ins : List Vals) (t : Table) : Table × Bool :=
  if ins.isEmpty then (t, true)
  else
    match inserting_scd_table_in_olap n ins t with
    | .ok t' => (t', true)
    | .error _ => (t, false)

/-- Outcome of one loader run: the table state reached (every phase commits
separately, so an aborted run still keeps its earlier phases' writes) and
whether the run completed without error. -/
structure RunResult where
  table : Table
  ok : Bool
deriving DecidableEq, Repr

/-- The loader (`load_user_profiling` / `load_transaction_summary`) for a
candidate snapshot of `m` columns (natural key first): stamp the three
history columns onto the snapshot, read the active rows, classify (skipping
classification when no active row exists), then run the update, delete and
insert phases in source order, stopping at the first failing phase. -/
def load_scd (m now nowU nowD : Nat) (cand : List Vals) (t0 : Table) : RunResult :=
  let n := m + 3
  let df := cand.map fun r => r ++ [Value.time now, Value.null, Value.bool true]
  let existing := read_scd_table_in_olap t0
  let cmp := if existing.isEmpty then (df, ([] : List UpdRow), ([] : List HistRow))
             else compare_tables n df existing
  let p1 := update_phase n nowU cmp.2.1 t0
  if p1.2 then
    let t2 := delete_phase nowD cmp.2.2 p1.1
    let p3 := insert_phase n cmp.1 t2
    ⟨p3.1, p3.2⟩
  else ⟨p1.1, false⟩

/-- The `user_profiling` loader: 14 snapshot columns (`user_id` plus 13
business attributes). -/
def load_user_profiling (now nowU nowD : Nat) (cand : List Vals) (t0 : Table) : RunResult :=
  load_scd 14 now nowU nowD cand t0

/-- The `transaction_summary` loader: 4 snapshot columns (`membership_type`
plus 3 business attributes). -/
def load_transaction_summary (now nowU nowD : Nat) (cand : List Vals) (t0 : Table) : RunResult :=
  load_scd 4 now nowU nowD cand t0

/-- The OLAP catalog as far as `init_scd_table_in_olap` observes it: which
sequences and which tables (with their declared column schema) exist. -/
structure Catalog where
  seqs : List String
  tables : List (String × List (String × String))
deriving DecidableEq, Repr

/-- `init_scd_table_in_olap`: `CREATE SEQUENCE IF NOT EXISTS {sk}_seq` and
`CREATE TABLE IF NOT EXISTS {table}`, each skipped without any change when
the object already exists. -/
def init_scd_table_in_olap (c : Catalog) (columns : List (String × String))
    (table_name sk : String) : Catalog :=
  let sname := sk ++ "_seq"
  let c1 := if sname ∈ c.seqs then c else { c with seqs := c.seqs ++ [sname] }
  if table_name ∈ c1.tables.map Prod.fst then c1
  else { c1 with tables := c1.tables ++ [(table_name, columns)] }

/-- The declared `user_profiling` schema (`user_profiling_columns`). -/
def user_profiling_columns : List (String × String) :=
  [("user_id", "INTEGER"), ("name", "VARCHAR"), ("email", "VARCHAR"),
   ("phone", "VARCHAR"), ("first_transaction_date", "TIMESTAMP"),
   ("last_transaction_date", "TIMESTAMP"), ("total_transactions", "INTEGER"),
   ("total_spent", "NUMERIC"), ("last_membership", "VARCHAR"),
   ("last_membership_expiry_date", "TIMESTAMP"),
   ("basic_membership_duration_days", "INTEGER"),
   ("premium_membership_duration_days", "INTEGER"),
   ("last_activity", "VARCHAR"), ("last_activity_date", "TIMESTAMP"),
   ("effective_start_date", "TIMESTAMP"), ("effective_end_date", "TIMESTAMP"),
   ("is_active", "BOOLEAN")]

/-- The declared `transaction_summary` schema (`transaction_summary_columns`). -/
def transaction_summary_columns : List (String × String) :=
  [("membership_type", "VARCHAR"), ("total_transactions", "INTEGER"),
   ("total_amount", "NUMERIC"), ("mdr_revenue", "NUMERIC"),
   ("effective_start_date", "TIMESTAMP"), ("effective_end_date", "TIMESTAMP"),
   ("is_active", "BOOLEAN")]

/-! ## Helper lemmas about the classifier -/

lemma keyMatches_iff {l : Vals} {r : HistRow} : keyMatches l r = true ↔ keyOf l = r.key := by
  simp [keyMatches, beq_iff_eq]

lemma mem_rows_to_insert {new_df : List Vals} {existing_df : List HistRow} {l : Vals} :
    l ∈ rows_to_insert new_df existing_df ↔ l ∈ new_df ∧ ∀ r ∈ existing_df, keyOf l ≠ r.key := by
  simp [rows_to_insert, List.mem_filter, List.any_eq_true, keyMatches_iff]

lemma mem_deleted_rows {new_df : List Vals} {existing_df : List HistRow} {r : HistRow} :
    r ∈ deleted_rows new_df existing_df ↔ r ∈ existing_df ∧ ∀ l ∈ new_df, keyOf l ≠ r.key := by
  simp [deleted_rows, List.mem_filter, List.any_eq_true, keyMatches_iff]

lemma mem_merged_both {new_df : List Vals} {existing_df : List HistRow} {u : UpdRow} :
    u ∈ merged_both new_df existing_df ↔
      u.snap ∈ new_df ∧ u.old ∈ existing_df ∧ keyOf u.snap = u.old.key := by
  constructor
  · intro h
    simp only [merged_both, List.mem_flatMap, List.mem_map, List.mem_filter] at h
    obtain ⟨l, hl, r, ⟨hr, hk⟩, rfl⟩ := h
    exact ⟨hl, hr, keyMatches_iff.mp hk⟩
  · rintro ⟨h1, h2, h3⟩
    simp only [merged_both, List.mem_flatMap, List.mem_map, List.mem_filter]
    exact ⟨u.snap, h1, u.old, ⟨h2, keyMatches_iff.mpr h3⟩, rfl⟩

lemma mem_rows_to_update {n : Nat} {new_df : List Vals} {existing_df : List HistRow} {u : UpdRow} :
    u ∈ rows_to_update n new_df existing_df ↔
      u.snap ∈ new_df ∧ u.old ∈ existing_df ∧ keyOf u.snap = u.old.key ∧ changedRow n u = true := by
  simp only [rows_to_update, List.mem_filter, mem_merged_both]
  tauto

/-! ## C2: output key sets of the classifier -/

/-- C2 (counterexample): a natural key present in both the candidate and the
active set with all tracked attributes equal (and non-null) is assigned to
none of the three output sets, so the union of the outputs' natural keys
does not cover `candidate.keys ∪ active.keys` — here key `1` is in both
inputs but all three outputs are empty. -/
theorem unchanged_key_not_covered_counterexample :
    compare_tables 5 [[Value.int 1, Value.int 2, Value.time 0, Value.null, Value.bool true]]
        [⟨1, [Value.int 1, Value.int 2, Value.time 9, Value.null, Value.bool true]⟩]
      = ([], [], [])
    ∧ keyOf [Value.int 1, Value.int 2, Value.time 0, Value.null, Value.bool true] = Value.int 1
    ∧ HistRow.key ⟨1, [Value.int 1, Value.int 2, Value.time 9, Value.null, Value.bool true]⟩
      = Value.int 1 := by
  decide

/-- C2 (amended): the three output sets of `compare_tables` have pairwise
disjoint natural-key sets; the insert keys are exactly the candidate keys
with no active row, the deleted keys exactly the active keys with no
candidate row, and the update keys exactly the shared keys for which some
matched pair differs under the pandas `eq` comparison.  The union therefore
covers `candidate.keys ∪ active.keys` minus the shared keys whose matched
pairs are all unchanged. -/
theorem compare_tables_key_partition (n : Nat) (new_df : List Vals) (existing_df : List HistRow) :
    (∀ l ∈ (compare_tables n new_df existing_df).1,
       ∀ u ∈ (compare_tables n new_df existing_df).2.1, keyOf l ≠ keyOf u.snap)
    ∧ (∀ l ∈ (compare_tables n new_df existing_df).1,
       ∀ r ∈ (compare_tables n new_df existing_df).2.2, keyOf l ≠ r.key)
    ∧ (∀ u ∈ (compare_tables n new_df existing_df).2.1,
       ∀ r ∈ (compare_tables n new_df existing_df).2.2, keyOf u.snap ≠ r.key)
    ∧ (∀ k, (∃ l ∈ (compare_tables n new_df existing_df).1, keyOf l = k) ↔
        ((∃ l ∈ new_df, keyOf l = k) ∧ ¬ ∃ r ∈ existing_df, r.key = k))
    ∧ (∀ k, (∃ r ∈ (compare_tables n new_df existing_df).2.2, r.key = k) ↔
        ((∃ r ∈ existing_df, r.key = k) ∧ ¬ ∃ l ∈ new_df, keyOf l = k))
    ∧ (∀ k, (∃ u ∈ (compare_tables n new_df existing_df).2.1, keyOf u.snap = k) ↔
        (∃ l ∈ new_df, keyOf l = k ∧ ∃ r ∈ existing_df, r.key = k ∧
          changedRow n ⟨l, r⟩ = true)) := by
  refine ⟨?_, ?_, ?_, ?_, ?_, ?_⟩
  · intro l hl u hu hk
    rw [show (compare_tables n new_df existing_df).1 = rows_to_insert new_df existing_df from rfl,
      mem_rows_to_insert] at hl
    rw [show (compare_tables n new_df existing_df).2.1 = rows_to_update n new_df existing_df from rfl,
      mem_rows_to_update] at hu
    exact hl.2 u.old hu.2.1 (hk.trans hu.2.2.1)
  · intro l hl r hr hk
    rw [show (compare_tables n new_df existing_df).1 = rows_to_insert new_df existing_df from rfl,
      mem_rows_to_insert] at hl
    rw [show (compare_tables n new_df existing_df).2.2 = deleted_rows new_df existing_df from rfl,
      mem_deleted_rows] at hr
    exact hl.2 r hr.1 hk
  · intro u hu r hr hk
    rw [show (compare_tables n new_df existing_df).2.1 = rows_to_update n new_df existing_df from rfl,
      mem_rows_to_update] at hu
    rw [show (compare_tables n new_df existing_df).2.2 = deleted_rows new_df existing_df from rfl,
      mem_deleted_rows] at hr
    exact hr.2 u.snap hu.1 hk
  · intro k
    constructor
    · rintro ⟨l, hl, rfl⟩
      rw [show (compare_tables n new_df existing_df).1 = rows_to_insert new_df existing_df from rfl,
        mem_rows_to_insert] at hl
      refine ⟨⟨l, hl.1, rfl⟩, ?_⟩
      rintro ⟨r, hr, hk⟩
      exact hl.2 r hr hk.symm
    · rintro ⟨⟨l, hl, rfl⟩, hno⟩
      refine ⟨l, ?_, rfl⟩
      rw [show (compare_tables n new_df existing_df).1 = rows_to_insert new_df existing_df from rfl,
        mem_rows_to_insert]
      exact ⟨hl, fun r hr hk => hno ⟨r, hr, hk.symm⟩⟩
  · intro k
    constructor
    · rintro ⟨r, hr, rfl⟩
      rw [show (compare_tables n new_df existing_df).2.2 = deleted_rows new_df existing_df from rfl,
        mem_deleted_rows] at hr
      exact ⟨⟨r, hr.1, rfl⟩, fun ⟨l, hl, hk⟩ => hr.2 l hl hk⟩
    · rintro ⟨⟨r, hr, rfl⟩, hno⟩
      refine ⟨r, ?_, rfl⟩
      rw [show (compare_tables n new_df existing_df).2.2 = deleted_rows new_df existing_df from rfl,
        mem_deleted_rows]
      exact ⟨hr, fun l hl hk => hno ⟨l, hl, hk⟩⟩
  · intro k
    constructor
    · rintro ⟨u, hu, rfl⟩
      rw [show (compare_tables n new_df existing_df).2.1 = rows_to_update n new_df existing_df from rfl,
        mem_rows_to_update] at hu
      exact ⟨u.snap, hu.1, rfl, u.old, hu.2.1, hu.2.2.1.symm, hu.2.2.2⟩
    · rintro ⟨l, hl, rfl, r, hr, hk, hc⟩
      refine ⟨⟨l, r⟩, ?_, rfl⟩
      rw [show (compare_tables n new_df existing_df).2.1 = rows_to_update n new_df existing_df from rfl,
        mem_rows_to_update]
      exact ⟨hl, hr, hk.symm, hc⟩

/-- Witness for `compare_tables_key_partition`: a concrete new key and a
concrete removed key land in the insert and deleted sets with distinct keys. -/
theorem compare_tables_key_partition_witness :
    keyOf [Value.int 2, Value.int 9, Value.time 0, Value.null, Value.bool true]
      ≠ HistRow.key ⟨1, [Value.int 1, Value.int 2, Value.time 9, Value.null, Value.bool true]⟩ :=
  (compare_tables_key_partition 5
      [[Value.int 2, Value.int 9, Value.time 0, Value.null, Value.bool true]]
      [⟨1, [Value.int 1, Value.int 2, Value.time 9, Value.null, Value.bool true]⟩]).2.1
    [Value.int 2, Value.int 9, Value.time 0, Value.null, Value.bool true] (by decide)
    ⟨1, [Value.int 1, Value.int 2, Value.time 9, Value.null, Value.bool true]⟩ (by decide)

/-! ## C3: unchanged keys and null handling -/

/-- C3 (counterexample): a key present on both sides whose single tracked
attribute is null on both sides — equal under the spec's value semantics
(`value_sem_eq`) — is nevertheless assigned to `rows_to_update`, because the
pandas `eq` comparison treats null as unequal to null. -/
theorem null_attr_key_reinserted_counterexample :
    (∀ i ∈ comparePositions 5,
        value_sem_eq ([Value.int 1, Value.null, Value.time 0, Value.null, Value.bool true].getD i .null)
          ((HistRow.mk 1 [Value.int 1, Value.null, Value.time 9, Value.null, Value.bool true]).vals.getD i .null)
          = true)
    ∧ (compare_tables 5 [[Value.int 1, Value.null, Value.time 0, Value.null, Value.bool true]]
          [⟨1, [Value.int 1, Value.null, Value.time 9, Value.null, Value.bool true]⟩]).2.1
        = [⟨[Value.int 1, Value.null, Value.time 0, Value.null, Value.bool true],
            ⟨1, [Value.int 1, Value.null, Value.time 9, Value.null, Value.bool true]⟩⟩] := by
  decide

/-- C3 (amended): for a key present in both inputs, if every tracked
attribute pair is equal under the pandas `eq` comparison — i.e. equal and
non-null; a null on either or both sides counts as a difference — then the
key is assigned to none of the three output sets (with at most one candidate
row and at most one active row per key). -/
theorem unchanged_nonnull_key_no_action (n : Nat) (new_df : List Vals)
    (existing_df : List HistRow) (l : Vals) (r : HistRow)
    (hnodupNew : (new_df.map keyOf).Nodup) (hnodupEx : (existing_df.map HistRow.key).Nodup)
    (hl : l ∈ new_df) (hr : r ∈ existing_df) (hk : keyOf l = r.key)
    (heq : ∀ i ∈ comparePositions n, peq (l.getD i .null) (r.vals.getD i .null) = true) :
    (∀ l' ∈ (compare_tables n new_df existing_df).1, keyOf l' ≠ keyOf l)
    ∧ (∀ u ∈ (compare_tables n new_df existing_df).2.1, keyOf u.snap ≠ keyOf l)
    ∧ (∀ r' ∈ (compare_tables n new_df existing_df).2.2, r'.key ≠ keyOf l) := by
  refine ⟨?_, ?_, ?_⟩
  · intro l' hl' hkey
    rw [show (compare_tables n new_df existing_df).1 = rows_to_insert new_df existing_df from rfl,
      mem_rows_to_insert] at hl'
    exact hl'.2 r hr (hkey.trans hk)
  · intro u hu hkey
    rw [show (compare_tables n new_df existing_df).2.1 = rows_to_update n new_df existing_df from rfl,
      mem_rows_to_update] at hu
    obtain ⟨hsnap, hold, hmatch, hchanged⟩ := hu
    have hsl : u.snap = l := List.inj_on_of_nodup_map hnodupNew hsnap hl hkey
    have hor : u.old = r := by
      refine List.inj_on_of_nodup_map hnodupEx hold hr ?_
      rw [← hmatch, hsl, hk]
    obtain ⟨i, hi, hb⟩ := List.any_eq_true.mp hchanged
    rw [hsl, hor] at hb
    rw [heq i hi] at hb
    simp at hb
  · intro r' hr' hkey
    rw [show (compare_tables n new_df existing_df).2.2 = deleted_rows new_df existing_df from rfl,
      mem_deleted_rows] at hr'
    exact hr'.2 l hl hkey.symm

/-- Witness for `unchanged_nonnull_key_no_action` at a concrete unchanged
non-null key `1`: the fresh key `2` landing in the insert set is not key `1`. -/
theorem unchanged_nonnull_key_no_action_witness :
    keyOf [Value.int 2, Value.int 9, Value.time 0, Value.null, Value.bool true]
      ≠ keyOf [Value.int 1, Value.int 2, Value.time 0, Value.null, Value.bool true] :=
  (unchanged_nonnull_key_no_action 5
      [[Value.int 1, Value.int 2, Value.time 0, Value.null, Value.bool true],
       [Value.int 2, Value.int 9, Value.time 0, Value.null, Value.bool true]]
      [⟨1, [Value.int 1, Value.int 2, Value.time 9, Value.null, Value.bool true]⟩]
      [Value.int 1, Value.int 2, Value.time 0, Value.null, Value.bool true]
      ⟨1, [Value.int 1, Value.int 2, Value.time 9, Value.null, Value.bool true]⟩
      (by decide) (by decide) (by decide) (by decide) (by decide) (by decide)).1
    [Value.int 2, Value.int 9, Value.time 0, Value.null, Value.bool true] (by decide)

/-! ## C7: duplicate active rows at classification time -/

/-- C7 (counterexample): with two active rows for natural key `1` and a
changed candidate for that key, classification raises no error: it returns
normally with both duplicates paired in `rows_to_update` (each would be
expired and re-inserted), instead of surfacing the invariant violation. -/
theorem duplicate_active_rows_processed_counterexample :
    compare_tables 5 [[Value.int 1, Value.int 3, Value.time 0, Value.null, Value.bool true]]
        [⟨1, [Value.int 1, Value.int 2, Value.time 9, Value.null, Value.bool true]⟩,
         ⟨2, [Value.int 1, Value.int 2, Value.time 9, Value.null, Value.bool true]⟩]
      = ([],
         [⟨[Value.int 1, Value.int 3, Value.time 0, Value.null, Value.bool true],
            ⟨1, [Value.int 1, Value.int 2, Value.time 9, Value.null, Value.bool true]⟩⟩,
          ⟨[Value.int 1, Value.int 3, Value.time 0, Value.null, Value.bool true],
            ⟨2, [Value.int 1, Value.int 2, Value.time 9, Value.null, Value.bool true]⟩⟩],
         []) := by
  decide

/-- C7 (amended): classification performs no defensive duplicate check —
every (candidate row, active row) pair with matching keys whose tracked
attributes differ is placed in `rows_to_update`, so a key with several
active rows has each of them classified (and later expired/re-inserted)
independently, with no error surfaced. -/
theorem duplicate_active_rows_all_compared (n : Nat) (new_df : List Vals)
    (existing_df : List HistRow) (l : Vals) (r : HistRow)
    (hl : l ∈ new_df) (hr : r ∈ existing_df) (hk : keyOf l = r.key)
    (hc : changedRow n ⟨l, r⟩ = true) :
    UpdRow.mk l r ∈ (compare_tables n new_df existing_df).2.1 := by
  rw [show (compare_tables n new_df existing_df).2.1 = rows_to_update n new_df existing_df from rfl,
    mem_rows_to_update]
  exact ⟨hl, hr, hk, hc⟩

/-- Witness for `duplicate_active_rows_all_compared`: the second duplicate
active row of key `1` is indeed paired and classified as changed. -/
theorem duplicate_active_rows_all_compared_witness :
    UpdRow.mk [Value.int 1, Value.int 3, Value.time 0, Value.null, Value.bool true]
        ⟨2, [Value.int 1, Value.int 2, Value.time 9, Value.null, Value.bool true]⟩
      ∈ (compare_tables 5 [[Value.int 1, Value.int 3, Value.time 0, Value.null, Value.bool true]]
          [⟨1, [Value.int 1, Value.int 2, Value.time 9, Value.null, Value.bool true]⟩,
           ⟨2, [Value.int 1, Value.int 2, Value.time 9, Value.null, Value.bool true]⟩]).2.1 :=
  duplicate_active_rows_all_compared 5 _ _ _ _ (by decide) (by decide) (by decide) (by decide)

/-! ## Shared list lemmas -/

lemma getD_set_ne {α : Type} (l : List α) (i j : Nat) (a d : α) (h : i ≠ j) :
    (l.set i a).getD j d = l.getD j d := by
  simp [List.getD, List.getElem?_set_ne h]

lemma getD_set_self {α : Type} (l : List α) (i : Nat) (a d : α) (h : i < l.length) :
    (l.set i a).getD i d = a := by
  simp [List.getD, List.getElem?_set_self, h]

lemma getD_map_of_lt {α β : Type} (l : List α) (f : α → β) (i : Nat) (d : β) (d' : α)
    (h : i < l.length) : (l.map f).getD i d = f (l.getD i d') := by
  rw [List.getD_eq_getElem _ _ (by simpa using h), List.getD_eq_getElem _ _ h]
  simp

lemma getD_append_left {α : Type} (xs ys : List α) (i : Nat) (d : α) (h : i < xs.length) :
    (xs ++ ys).getD i d = xs.getD i d := by
  simp [List.getD, List.getElem?_append, h]

lemma getD_append_right {α : Type} (xs ys : List α) (i : Nat) (d : α) (h : xs.length ≤ i) :
    (xs ++ ys).getD i d = ys.getD (i - xs.length) d := by
  simp [List.getD, List.getElem?_append, Nat.not_lt.mpr h]

/-! ## Frame and growth lemmas for the mutator operations -/

lemma expireRow_sk (now : Nat) (r : HistRow) : (expireRow now r).sk = r.sk := rfl

lemma expireRow_vals_length (now : Nat) (r : HistRow) :
    (expireRow now r).vals.length = r.vals.length := by
  simp [expireRow]

lemma expiring_rows_length (now : Nat) (sks : List Int) (t : Table) :
    (expiring_scd_table_in_olap now sks t).rows.length = t.rows.length := by
  simp [expiring_scd_table_in_olap]

lemma expiring_getD (now : Nat) (sks : List Int) (t : Table) (i : Nat) (h : i < t.rows.length) :
    (expiring_scd_table_in_olap now sks t).rows.getD i dRow
      = if (t.rows.getD i dRow).sk ∈ sks then expireRow now (t.rows.getD i dRow)
        else t.rows.getD i dRow := by
  unfold expiring_scd_table_in_olap
  exact getD_map_of_lt _ _ i dRow dRow h

lemma inserting_ok_rows {n : Nat} {data : List Vals} {t t' : Table}
    (h : inserting_scd_table_in_olap n data t = .ok t') :
    t'.rows = t.rows ++ assignSks t.nextSk data ∧ t'.nextSk = t.nextSk + data.length := by
  unfold inserting_scd_table_in_olap at h
  split at h
  · simp only [Except.ok.injEq] at h
    subst h
    exact ⟨rfl, rfl⟩
  · simp at h

lemma inserting_error_of_bad {n : Nat} {data : List Vals} (t : Table) (r : Vals)
    (hr : r ∈ data) (hlen : r.length ≠ n) :
    inserting_scd_table_in_olap n data t = .error () := by
  unfold inserting_scd_table_in_olap
  rw [if_neg]
  intro hall
  exact hlen (by simpa using List.all_eq_true.mp hall r hr)

lemma mergedRecord_length_gt (u : UpdRow) : u.snap.length < (mergedRecord u).length := by
  simp [mergedRecord]

lemma update_phase_nil (n nowU : Nat) (t : Table) : update_phase n nowU [] t = (t, true) := rfl

lemma le_update_phase (n nowU : Nat) (upd : List UpdRow) (t : Table) :
    t.rows.length ≤ (update_phase n nowU upd t).1.rows.length := by
  unfold update_phase
  by_cases h : upd.isEmpty
  · simp [h]
  · simp only [h, Bool.false_eq_true, if_false]
    cases hins : inserting_scd_table_in_olap n (upd.map mergedRecord)
        (expiring_scd_table_in_olap nowU (upd.map fun u => u.old.sk) t) with
    | ok t1' =>
        simp only
        rw [(inserting_ok_rows hins).1]
        simp [expiring_rows_length]
    | error e =>
        simp [expiring_rows_length]

lemma delete_phase_rows_length (nowD : Nat) (del : List HistRow) (t : Table) :
    (delete_phase nowD del t).rows.length = t.rows.length := by
  unfold delete_phase
  split <;> simp [expiring_rows_length]

lemma le_insert_phase (n : Nat) (ins : List Vals) (t : Table) :
    t.rows.length ≤ (insert_phase n ins t).1.rows.length := by
  unfold insert_phase
  by_cases h : ins.isEmpty
  · simp [h]
  · simp only [h, Bool.false_eq_true, if_false]
    cases hins : inserting_scd_table_in_olap n ins t with
    | ok t' =>
        simp only
        rw [(inserting_ok_rows hins).1]
        simp
    | error e => simp

lemma le_load_scd_length (m now nowU nowD : Nat) (cand : List Vals) (t0 : Table) :
    t0.rows.length ≤ (load_scd m now nowU nowD cand t0).table.rows.length := by
  unfold load_scd
  dsimp only
  split <;> split <;>
    first
      | exact le_update_phase _ _ _ _
      | exact le_trans (le_trans (le_update_phase _ _ _ _)
          (le_of_eq (delete_phase_rows_length _ _ _).symm)) (le_insert_phase _ _ _)

/-! ## C8: expire is a frame-preserving update; the engine never deletes -/

/-- C8: the expire operation keeps the row count and surrogate keys, leaves
rows whose surrogate key is not listed completely unchanged, and on listed
rows rewrites exactly the `effective_end_date` and `is_active` positions,
leaving every other column value intact; the insert operation only appends;
and a whole loader run never decreases the row count (even a run aborted by
a failed phase). -/
theorem expire_frame_and_growth :
    (∀ (now : Nat) (sks : List Int) (t : Table),
       (expiring_scd_table_in_olap now sks t).rows.length = t.rows.length
       ∧ ∀ i, i < t.rows.length →
           ((expiring_scd_table_in_olap now sks t).rows.getD i dRow).sk
               = (t.rows.getD i dRow).sk
           ∧ ((t.rows.getD i dRow).sk ∉ sks →
                (expiring_scd_table_in_olap now sks t).rows.getD i dRow = t.rows.getD i dRow)
           ∧ ((t.rows.getD i dRow).sk ∈ sks →
                (expiring_scd_table_in_olap now sks t).rows.getD i dRow
                  = expireRow now (t.rows.getD i dRow)))
    ∧ (∀ (now : Nat) (r : HistRow),
        (expireRow now r).sk = r.sk
        ∧ (expireRow now r).vals.length = r.vals.length
        ∧ (∀ j, j ≠ r.vals.length - 2 → j ≠ r.vals.length - 1 →
            (expireRow now r).vals.getD j Value.null = r.vals.getD j Value.null)
        ∧ (2 ≤ r.vals.length →
            (expireRow now r).vals.getD (r.vals.length - 2) Value.null = Value.time now
            ∧ (expireRow now r).vals.getD (r.vals.length - 1) Value.null = Value.bool false))
    ∧ (∀ (n : Nat) (data : List Vals) (t t' : Table),
        inserting_scd_table_in_olap n data t = .ok t' →
          t'.rows = t.rows ++ assignSks t.nextSk data)
    ∧ (∀ (m now nowU nowD : Nat) (cand : List Vals) (t0 : Table),
        t0.rows.length ≤ (load_scd m now nowU nowD cand t0).table.rows.length) := by
  refine ⟨?_, ?_, ?_, ?_⟩
  · intro now sks t
    refine ⟨expiring_rows_length now sks t, ?_⟩
    intro i hi
    rw [expiring_getD now sks t i hi]
    by_cases h : (t.rows.getD i dRow).sk ∈ sks
    · rw [if_pos h]
      exact ⟨expireRow_sk _ _, fun hn => absurd h hn, fun _ => rfl⟩
    · rw [if_neg h]
      exact ⟨rfl, fun _ => rfl, fun hmem => absurd hmem h⟩
  · intro now r
    refine ⟨rfl, expireRow_vals_length now r, ?_, ?_⟩
    · intro j h2 h1
      show ((r.vals.set (r.vals.length - 2) (Value.time now)).set
        (r.vals.length - 1) (Value.bool false)).getD j Value.null = r.vals.getD j Value.null
      rw [getD_set_ne _ _ _ _ _ (fun he => h1 he.symm),
        getD_set_ne _ _ _ _ _ (fun he => h2 he.symm)]
    · intro hlen
      constructor
      · show ((r.vals.set (r.vals.length - 2) (Value.time now)).set
          (r.vals.length - 1) (Value.bool false)).getD (r.vals.length - 2) Value.null
            = Value.time now
        rw [getD_set_ne _ _ _ _ _ (by omega), getD_set_self _ _ _ _ (by omega)]
      · show ((r.vals.set (r.vals.length - 2) (Value.time now)).set
          (r.vals.length - 1) (Value.bool false)).getD (r.vals.length - 1) Value.null
            = Value.bool false
        rw [getD_set_self _ _ _ _ (by simp; omega)]
  · intro n data t t' h
    exact (inserting_ok_rows h).1
  · intro m now nowU nowD cand t0
    exact le_load_scd_length m now nowU nowD cand t0

/-- Witness for `expire_frame_and_growth` at a concrete two-row table:
the listed row is expired in place, the unlisted row is untouched, and a
concrete aborted run does not shrink the table. -/
theorem expire_frame_and_growth_witness :
    ((expiring_scd_table_in_olap 5 [1]
        ⟨[⟨1, [Value.int 7, Value.int 100, Value.time 0, Value.null, Value.bool true]⟩,
          ⟨2, [Value.int 8, Value.int 50, Value.time 0, Value.null, Value.bool true]⟩], 3⟩).rows.getD 0 dRow
      = expireRow 5 ⟨1, [Value.int 7, Value.int 100, Value.time 0, Value.null, Value.bool true]⟩)
    ∧ ((expiring_scd_table_in_olap 5 [1]
        ⟨[⟨1, [Value.int 7, Value.int 100, Value.time 0, Value.null, Value.bool true]⟩,
          ⟨2, [Value.int 8, Value.int 50, Value.time 0, Value.null, Value.bool true]⟩], 3⟩).rows.getD 1 dRow
      = ⟨2, [Value.int 8, Value.int 50, Value.time 0, Value.null, Value.bool true]⟩)
    ∧ (expireRow 5 (⟨1, [Value.int 7, Value.int 100, Value.time 0, Value.null, Value.bool true]⟩ : HistRow)).vals.getD 3 Value.null
      = Value.time 5
    ∧ (1 : Nat) ≤ (load_scd 2 1 2 3 [[Value.int 7, Value.int 150]]
        ⟨[⟨1, [Value.int 7, Value.int 100, Value.time 0, Value.null, Value.bool true]⟩], 2⟩).table.rows.length := by
  refine ⟨?_, ?_, ?_, ?_⟩
  · exact ((expire_frame_and_growth.1 5 [1] _).2 0 (by decide)).2.2 (by decide)
  · exact ((expire_frame_and_growth.1 5 [1] _).2 1 (by decide)).2.1 (by decide)
  · exact ((expire_frame_and_growth.2.1 5 _).2.2.2 (by decide)).1
  · simpa using expire_frame_and_growth.2.2.2 2 1 2 3 [[Value.int 7, Value.int 150]]
      ⟨[⟨1, [Value.int 7, Value.int 100, Value.time 0, Value.null, Value.bool true]⟩], 2⟩

/-! ## C9: table definition is idempotent -/

/-- C9: when the surrogate-key sequence and the table already exist,
`init_scd_table_in_olap` changes nothing; and calling it twice always
equals calling it once. -/
theorem init_scd_idempotent (c : Catalog) (columns : List (String × String))
    (table_name sk : String) :
    ((sk ++ "_seq") ∈ c.seqs → table_name ∈ c.tables.map Prod.fst →
       init_scd_table_in_olap c columns table_name sk = c)
    ∧ init_scd_table_in_olap (init_scd_table_in_olap c columns table_name sk)
        columns table_name sk
      = init_scd_table_in_olap c columns table_name sk := by
  constructor
  · intro h1 h2
    simp [init_scd_table_in_olap, h1, h2]
  · by_cases h1 : (sk ++ "_seq") ∈ c.seqs <;>
      by_cases h2 : table_name ∈ c.tables.map Prod.fst <;>
      simp [init_scd_table_in_olap, h1, h2]

/-- Witness for `init_scd_idempotent`: with the `user_sk` sequence and the
`user_profiling` table already present, the call changes nothing. -/
theorem init_scd_idempotent_witness :
    init_scd_table_in_olap
        ⟨["user_sk_seq"], [("user_profiling", user_profiling_columns)]⟩
        user_profiling_columns "user_profiling" "user_sk"
      = ⟨["user_sk_seq"], [("user_profiling", user_profiling_columns)]⟩ :=
  (init_scd_idempotent ⟨["user_sk_seq"], [("user_profiling", user_profiling_columns)]⟩
      user_profiling_columns "user_profiling" "user_sk").1 (by simp) (by simp)

/-! ## Loader-run reduction lemmas -/

lemma compare_tables_nil (n : Nat) (df : List Vals) :
    compare_tables n df [] = (df, [], []) := by
  simp [compare_tables, rows_to_insert, rows_to_update, merged_both, deleted_rows]

lemma rows_to_update_nil (n : Nat) (df : List Vals) : rows_to_update n df [] = [] := by
  simp [rows_to_update, merged_both]

lemma cmp_branch_eq (n : Nat) (df : List Vals) (existing : List HistRow) :
    (if existing.isEmpty then (df, ([] : List UpdRow), ([] : List HistRow))
     else compare_tables n df existing) = compare_tables n df existing := by
  split
  · next h =>
      rw [List.isEmpty_iff.mp h, compare_tables_nil]
  · rfl

lemma delete_phase_eq (nowD : Nat) (del : List HistRow) (t : Table) :
    delete_phase nowD del t = expiring_scd_table_in_olap nowD (del.map (·.sk)) t := by
  unfold delete_phase
  split
  · next h =>
      rw [List.isEmpty_iff.mp h]
      simp [expiring_scd_table_in_olap]
  · rfl

lemma insert_phase_ok (n : Nat) (ins : List Vals) (t : Table)
    (hall : ins.all (fun r => r.length = n) = true) :
    insert_phase n ins t
      = (⟨t.rows ++ assignSks t.nextSk ins, t.nextSk + ins.length⟩, true) := by
  unfold insert_phase
  by_cases h : ins.isEmpty
  · rw [if_pos h, List.isEmpty_iff.mp h]
    simp [assignSks]
  · rw [if_neg (by simpa using h)]
    have : inserting_scd_table_in_olap n ins t
        = .ok ⟨t.rows ++ assignSks t.nextSk ins, t.nextSk + ins.length⟩ := by
      unfold inserting_scd_table_in_olap
      rw [if_pos hall]
    rw [this]

lemma df_all_length (m now : Nat) (cand : List Vals) (hw : ∀ r ∈ cand, r.length = m) :
    (cand.map fun r => r ++ [Value.time now, Value.null, Value.bool true]).all
      (fun r => r.length = m + 3) = true := by
  rw [List.all_eq_true]
  intro x hx
  simp only [List.mem_map] at hx
  obtain ⟨r, hr, rfl⟩ := hx
  simp [hw r hr]

lemma ins_all_length (m now : Nat) (cand : List Vals) (existing : List HistRow)
    (hw : ∀ r ∈ cand, r.length = m) :
    (rows_to_insert (cand.map fun r => r ++ [Value.time now, Value.null, Value.bool true])
        existing).all (fun r => r.length = m + 3) = true := by
  rw [List.all_eq_true]
  intro x hx
  have hxd := (mem_rows_to_insert.mp hx).1
  exact List.all_eq_true.mp (df_all_length m now cand hw) x hxd

/-- Reduction of a loader run whose update set is empty: the run succeeds,
expires exactly the deleted rows' surrogate keys and appends exactly the
fresh candidate rows. -/
lemma load_scd_of_upd_nil (m now nowU nowD : Nat) (cand : List Vals) (t0 : Table)
    (hw : ∀ r ∈ cand, r.length = m)
    (hupd : rows_to_update (m + 3)
        (cand.map fun r => r ++ [Value.time now, Value.null, Value.bool true])
        (read_scd_table_in_olap t0) = []) :
    load_scd m now nowU nowD cand t0
      = ⟨⟨(expiring_scd_table_in_olap nowD
            ((deleted_rows (cand.map fun r => r ++ [Value.time now, Value.null, Value.bool true])
                (read_scd_table_in_olap t0)).map (·.sk)) t0).rows
            ++ assignSks t0.nextSk
                (rows_to_insert (cand.map fun r => r ++ [Value.time now, Value.null, Value.bool true])
                  (read_scd_table_in_olap t0)),
          t0.nextSk
            + (rows_to_insert (cand.map fun r => r ++ [Value.time now, Value.null, Value.bool true])
                (read_scd_table_in_olap t0)).length⟩,
        true⟩ := by
  unfold load_scd
  dsimp only
  rw [cmp_branch_eq]
  rw [show (compare_tables (m + 3)
      (cand.map fun r => r ++ [Value.time now, Value.null, Value.bool true])
      (read_scd_table_in_olap t0)).2.1 = rows_to_update (m + 3)
      (cand.map fun r => r ++ [Value.time now, Value.null, Value.bool true])
      (read_scd_table_in_olap t0) from rfl, hupd]
  rw [show update_phase (m + 3) nowU [] t0 = (t0, true) from rfl]
  dsimp only
  rw [if_pos rfl]
  rw [delete_phase_eq]
  rw [show (compare_tables (m + 3)
      (cand.map fun r => r ++ [Value.time now, Value.null, Value.bool true])
      (read_scd_table_in_olap t0)).2.2 = deleted_rows
      (cand.map fun r => r ++ [Value.time now, Value.null, Value.bool true])
      (read_scd_table_in_olap t0) from rfl]
  rw [show (compare_tables (m + 3)
      (cand.map fun r => r ++ [Value.time now, Value.null, Value.bool true])
      (read_scd_table_in_olap t0)).1 = rows_to_insert
      (cand.map fun r => r ++ [Value.time now, Value.null, Value.bool true])
      (read_scd_table_in_olap t0) from rfl]
  rw [insert_phase_ok _ _ _ (ins_all_length m now cand _ hw)]
  rfl

lemma update_phase_fail (n nowU : Nat) (upd : List UpdRow) (t : Table)
    (hne : upd ≠ []) (hbad : ∃ u ∈ upd, (mergedRecord u).length ≠ n) :
    update_phase n nowU upd t
      = (expiring_scd_table_in_olap nowU (upd.map fun u => u.old.sk) t, false) := by
  obtain ⟨u, hu, hb⟩ := hbad
  unfold update_phase
  rw [if_neg (by simpa using hne)]
  dsimp only
  rw [inserting_error_of_bad _ (mergedRecord u) (List.mem_map_of_mem _ hu) hb]

/-- A run that completed without error had an empty update set: with
well-formed snapshot rows every merged record is wider than the prepared
insert statement, so a non-empty update set always aborts the run. -/
lemma run_ok_upd_nil (m now nowU nowD : Nat) (cand : List Vals) (t0 : Table)
    (hw : ∀ r ∈ cand, r.length = m)
    (hok : (load_scd m now nowU nowD cand t0).ok = true) :
    rows_to_update (m + 3) (cand.map fun r => r ++ [Value.time now, Value.null, Value.bool true])
      (read_scd_table_in_olap t0) = [] := by
  by_contra hne
  have hbad : ∃ u ∈ rows_to_update (m + 3)
      (cand.map fun r => r ++ [Value.time now, Value.null, Value.bool true])
      (read_scd_table_in_olap t0), (mergedRecord u).length ≠ m + 3 := by
    obtain ⟨u, hu⟩ := List.exists_mem_of_ne_nil _ hne
    refine ⟨u, hu, ?_⟩
    have hsnap := (mem_rows_to_update.mp hu).1
    obtain ⟨r, hr, hre⟩ := List.mem_map.mp hsnap
    have h1 : u.snap.length = m + 3 := by
      rw [← hre]
      simp [hw r hr]
    have h2 := mergedRecord_length_gt u
    omega
  have hfail := update_phase_fail (m + 3) nowU _ t0 hne hbad
  unfold load_scd at hok
  dsimp only at hok
  rw [cmp_branch_eq] at hok
  rw [show (compare_tables (m + 3)
      (cand.map fun r => r ++ [Value.time now, Value.null, Value.bool true])
      (read_scd_table_in_olap t0)).2.1 = rows_to_update (m + 3)
      (cand.map fun r => r ++ [Value.time now, Value.null, Value.bool true])
      (read_scd_table_in_olap t0) from rfl] at hok
  rw [hfail] at hok
  simp at hok

lemma vals_mem_of_mem_assignSks {s : Int} {data : List Vals} {hr : HistRow}
    (h : hr ∈ assignSks s data) : hr.vals ∈ data := by
  induction data generalizing s with
  | nil => simp [assignSks] at h
  | cons v vs ih =>
      simp only [assignSks, List.mem_cons] at h
      rcases h with h1 | h2
      · subst h1
        exact List.mem_cons_self _ _
      · exact List.mem_cons_of_mem _ (ih h2)

lemma getLastD_append_triple (xs : List Value) (a b c : Value) :
    ∀ d, (xs ++ [a, b, c]).getLastD d = c := by
  induction xs with
  | nil => intro d; rfl
  | cons x xt ih =>
      intro d
      rw [List.cons_append, List.getLastD_cons]
      exact ih x

lemma headD_append_of_ne_nil {xs : List Value} (ys : List Value) (d : Value) (h : xs ≠ []) :
    (xs ++ ys).headD d = xs.headD d := by
  cases xs with
  | nil => exact absurd rfl h
  | cons x xt => rfl

/-! ## C10: first run inserts everything, expires nothing -/

/-- C10: when the target table has no active rows, the run completes
without error, appends exactly one fresh row per candidate row (stamped
with the run's start date) and touches no pre-existing row; every appended
row is active with an absent `effective_end_date`. -/
theorem first_run_inserts_all (m now nowU nowD : Nat) (cand : List Vals) (t0 : Table)
    (hw : ∀ r ∈ cand, r.length = m)
    (hempty : read_scd_table_in_olap t0 = []) :
    load_scd m now nowU nowD cand t0
      = ⟨⟨t0.rows ++ assignSks t0.nextSk
            (cand.map fun r => r ++ [Value.time now, Value.null, Value.bool true]),
          t0.nextSk + cand.length⟩, true⟩
    ∧ ∀ hr ∈ assignSks t0.nextSk
          (cand.map fun r => r ++ [Value.time now, Value.null, Value.bool true]),
        hr.isActive = true ∧ hr.vals.getD (m + 1) Value.null = Value.null := by
  constructor
  · have h0 := load_scd_of_upd_nil m now nowU nowD cand t0 hw
      (by rw [hempty, rows_to_update_nil])
    rw [h0, hempty]
    simp [deleted_rows, rows_to_insert, expiring_scd_table_in_olap]
  · intro hr hmem
    have hv := vals_mem_of_mem_assignSks hmem
    obtain ⟨r, hrc, hre⟩ := List.mem_map.mp hv
    constructor
    · simp [HistRow.isActive, ← hre, getLastD_append_triple]
    · rw [← hre, getD_append_right _ _ _ _ (by rw [hw r hrc]; omega), hw r hrc]
      have h1 : m + 1 - m = 1 := by omega
      rw [h1]
      rfl

/-- Witness for `first_run_inserts_all` on a concrete one-row snapshot and
an empty table. -/
theorem first_run_inserts_all_witness :
    load_scd 2 0 0 0 [[Value.int 1, Value.int 5]] ⟨[], 1⟩
      = ⟨⟨[⟨1, [Value.int 1, Value.int 5, Value.time 0, Value.null, Value.bool true]⟩], 2⟩, true⟩ := by
  have h := (first_run_inserts_all 2 0 0 0 [[Value.int 1, Value.int 5]] ⟨[], 1⟩
    (by decide) (by decide)).1
  simpa using h

/-! ## C5: a changed key aborts the run after expiring -/

/-- C5 (code bug): with active row `{key 7, amount 100}` and candidate
`{key 7, amount 150}`, the run expires the old row (own committed
transaction) and then aborts: the re-insert binds the 11-value merged
record (candidate columns + `user_sk` + `_old` columns + `_merge`) against
the 5-column prepared insert, a parameter-arity failure.  No new row is
inserted, contradicting the spec's expire+insert pair: the table is left
with the key expired and no active replacement. -/
theorem changed_key_run_fails_after_expire :
    load_scd 2 1 2 3 [[Value.int 7, Value.int 150]]
        ⟨[⟨1, [Value.int 7, Value.int 100, Value.time 0, Value.null, Value.bool true]⟩], 2⟩
      = ⟨⟨[⟨1, [Value.int 7, Value.int 100, Value.time 0, Value.time 2, Value.bool false]⟩], 2⟩,
        false⟩ := by
  decide

/-! ## Counting and row-shape helpers -/

lemma length_assignSks (s : Int) (data : List Vals) :
    (assignSks s data).length = data.length := by
  induction data generalizing s with
  | nil => rfl
  | cons v vs ih => simp [assignSks, ih]

lemma exists_mem_assignSks {data : List Vals} (s : Int) {v : Vals} (hv : v ∈ data) :
    ∃ hr ∈ assignSks s data, hr.vals = v := by
  induction data generalizing s with
  | nil => cases hv
  | cons w ws ih =>
      rcases List.mem_cons.mp hv with h1 | h2
      · exact ⟨⟨s, w⟩, by simp [assignSks], h1.symm⟩
      · obtain ⟨hr, hmem, he⟩ := ih (s + 1) h2
        exact ⟨hr, by simp [assignSks, hmem], he⟩

lemma countP_assignSks (s : Int) (data : List Vals) (q : Vals → Bool) :
    (assignSks s data).countP (fun hr => q hr.vals) = data.countP q := by
  induction data generalizing s with
  | nil => rfl
  | cons v vs ih => simp [assignSks, List.countP_cons, ih]

lemma getD_mem_of_lt {α : Type} (l : List α) (i : Nat) (d : α) (h : i < l.length) :
    l.getD i d ∈ l := by
  rw [List.getD_eq_getElem _ _ h]
  exact List.getElem_mem h

lemma keyOf_append {xs : List Value} (ys : List Value) (h : xs ≠ []) :
    keyOf (xs ++ ys) = keyOf xs := by
  unfold keyOf
  exact headD_append_of_ne_nil ys Value.null h

lemma peq_self {v : Value} (h : v ≠ Value.null) : peq v v = true := by
  cases v with
  | null => exact absurd rfl h
  | int n => simp [peq]
  | str s => simp [peq]
  | bool b => simp [peq]
  | time t => simp [peq]

lemma mem_comparePositions {n i : Nat} : i ∈ comparePositions n ↔ 1 ≤ i ∧ i < n - 3 := by
  simp only [comparePositions, List.mem_map, List.mem_range]
  constructor
  · rintro ⟨j, hj, rfl⟩
    omega
  · intro h
    exact ⟨i - 1, by omega, by omega⟩

lemma getLastD_set_last {α : Type} (l : List α) (a d : α) (h : l ≠ []) :
    (l.set (l.length - 1) a).getLastD d = a := by
  have h1 : l.length - 1 < l.length := by
    cases l with
    | nil => exact absurd rfl h
    | cons x xt => simp
  rw [List.getLastD_eq_getLast?, List.getLast?_eq_getElem?]
  simp [List.length_set, List.getElem?_set_self, h1]

lemma expireRow_not_active (now : Nat) (r : HistRow) : (expireRow now r).isActive = false := by
  cases hv : r.vals with
  | nil => simp [expireRow, HistRow.isActive, hv]
  | cons x xt =>
      have hne : r.vals.set (r.vals.length - 2) (Value.time now) ≠ [] := by
        rw [hv]
        intro hc
        have := congrArg List.length hc
        simp at this
      show (((r.vals.set (r.vals.length - 2) (Value.time now)).set
        (r.vals.length - 1) (Value.bool false)).getLastD Value.null == Value.bool true) = false
      rw [show r.vals.length - 1
          = (r.vals.set (r.vals.length - 2) (Value.time now)).length - 1 from by simp]
      rw [getLastD_set_last _ _ _ hne]
      rfl

lemma expiring_nil (now : Nat) (t : Table) : expiring_scd_table_in_olap now [] t = t := by
  simp [expiring_scd_table_in_olap]

lemma countP_eq_one_of_nodup_map {α : Type} (f : α → Value) (l : List α) (k : Value)
    (hnd : (l.map f).Nodup) (hmem : ∃ x ∈ l, f x = k) :
    l.countP (fun x => f x == k) = 1 := by
  induction l with
  | nil =>
      obtain ⟨x, hx, -⟩ := hmem
      cases hx
  | cons a tl ih =>
      rw [List.map_cons, List.nodup_cons] at hnd
      by_cases hak : f a = k
      · have htl : tl.countP (fun x => f x == k) = 0 := by
          rw [List.countP_eq_zero]
          intro x hx
          intro hxk
          exact hnd.1 (hak ▸ beq_iff_eq.mp hxk ▸ List.mem_map_of_mem f hx)
        rw [List.countP_cons, htl]
        simp [hak]
      · have hmem' : ∃ x ∈ tl, f x = k := by
          obtain ⟨x, hx, hxk⟩ := hmem
          rcases List.mem_cons.mp hx with h1 | h2
          · exact absurd (h1 ▸ hxk) hak
          · exact ⟨x, h2, hxk⟩
        rw [List.countP_cons, ih hnd.2 hmem']
        simp [hak]

/-! ## C6: removal closes history without replacement -/

/-- C6: a row that is active before an error-free run and whose natural key
is absent from the candidate snapshot is expired in place by the run's
delete phase (timestamped, `is_active = false`), and none of the rows the
run appends carries that key. -/
theorem removed_key_expired_without_replacement
    (m now nowU nowD : Nat) (cand : List Vals) (t0 t' : Table) (i : Nat)
    (hm : 1 ≤ m) (hw : ∀ r ∈ cand, r.length = m)
    (hrun : load_scd m now nowU nowD cand t0 = ⟨t', true⟩)
    (hi : i < t0.rows.length)
    (hact : (t0.rows.getD i dRow).isActive = true)
    (habs : (t0.rows.getD i dRow).key ∉ cand.map keyOf) :
    t'.rows.getD i dRow = expireRow nowD (t0.rows.getD i dRow)
    ∧ (t'.rows.getD i dRow).isActive = false
    ∧ ∀ j, t0.rows.length ≤ j → j < t'.rows.length →
        (t'.rows.getD j dRow).key ≠ (t0.rows.getD i dRow).key := by
  have hok : (load_scd m now nowU nowD cand t0).ok = true := by rw [hrun]
  have hupd := run_ok_upd_nil m now nowU nowD cand t0 hw hok
  have h0 := load_scd_of_upd_nil m now nowU nowD cand t0 hw hupd
  rw [h0] at hrun
  injection hrun with hT hB
  subst hT
  dsimp only
  have hr0mem : t0.rows.getD i dRow ∈ read_scd_table_in_olap t0 :=
    List.mem_filter.mpr ⟨getD_mem_of_lt _ _ _ hi, hact⟩
  have hkeyne : ∀ l ∈ cand.map fun r => r ++ [Value.time now, Value.null, Value.bool true],
      keyOf l ≠ (t0.rows.getD i dRow).key := by
    intro l hl heq
    obtain ⟨c, hc, rfl⟩ := List.mem_map.mp hl
    have hcne : c ≠ [] := by
      intro hnil
      have hlc := hw c hc
      rw [hnil] at hlc
      simp at hlc
      omega
    rw [keyOf_append _ hcne] at heq
    exact habs (heq ▸ List.mem_map_of_mem keyOf hc)
  have hr0del : t0.rows.getD i dRow ∈ deleted_rows
      (cand.map fun r => r ++ [Value.time now, Value.null, Value.bool true])
      (read_scd_table_in_olap t0) :=
    mem_deleted_rows.mpr ⟨hr0mem, hkeyne⟩
  have hsk : (t0.rows.getD i dRow).sk ∈ (deleted_rows
      (cand.map fun r => r ++ [Value.time now, Value.null, Value.bool true])
      (read_scd_table_in_olap t0)).map (·.sk) := List.mem_map_of_mem _ hr0del
  have hlenE : (expiring_scd_table_in_olap nowD ((deleted_rows
      (cand.map fun r => r ++ [Value.time now, Value.null, Value.bool true])
      (read_scd_table_in_olap t0)).map (·.sk)) t0).rows.length = t0.rows.length :=
    expiring_rows_length _ _ _
  have hpart1 : ((expiring_scd_table_in_olap nowD ((deleted_rows
        (cand.map fun r => r ++ [Value.time now, Value.null, Value.bool true])
        (read_scd_table_in_olap t0)).map (·.sk)) t0).rows
      ++ assignSks t0.nextSk (rows_to_insert
        (cand.map fun r => r ++ [Value.time now, Value.null, Value.bool true])
        (read_scd_table_in_olap t0))).getD i dRow
      = expireRow nowD (t0.rows.getD i dRow) := by
    rw [getD_append_left _ _ _ _ (by rw [hlenE]; exact hi)]
    rw [expiring_getD nowD _ t0 i hi]
    rw [if_pos hsk]
  refine ⟨hpart1, ?_, ?_⟩
  · rw [hpart1]
    exact expireRow_not_active nowD _
  · intro j hj1 hj2
    rw [getD_append_right _ _ _ _ (by rw [hlenE]; exact hj1)]
    rw [List.length_append, hlenE] at hj2
    have hjlt : j - (expiring_scd_table_in_olap nowD ((deleted_rows
        (cand.map fun r => r ++ [Value.time now, Value.null, Value.bool true])
        (read_scd_table_in_olap t0)).map (·.sk)) t0).rows.length
        < (assignSks t0.nextSk (rows_to_insert
            (cand.map fun r => r ++ [Value.time now, Value.null, Value.bool true])
            (read_scd_table_in_olap t0))).length := by
      rw [hlenE]
      omega
    have hmem := getD_mem_of_lt _ _ dRow hjlt
    have hv := vals_mem_of_mem_assignSks hmem
    have hdfmem := (mem_rows_to_insert.mp hv).1
    intro heq
    exact hkeyne _ hdfmem heq

/-- Witness for `removed_key_expired_without_replacement`: active key `7`
absent from the snapshot `{key 9}` is expired at the delete-phase time and
the appended row carries key `9`, not `7`. -/
theorem removed_key_expired_without_replacement_witness :
    ((⟨[⟨1, [Value.int 7, Value.int 100, Value.time 0, Value.time 3, Value.bool false]⟩,
        ⟨2, [Value.int 9, Value.int 1, Value.time 1, Value.null, Value.bool true]⟩], 3⟩ : Table).rows.getD 0 dRow
      = expireRow 3 ((⟨[⟨1, [Value.int 7, Value.int 100, Value.time 0, Value.null, Value.bool true]⟩], 2⟩ : Table).rows.getD 0 dRow))
    ∧ (((⟨[⟨1, [Value.int 7, Value.int 100, Value.time 0, Value.time 3, Value.bool false]⟩,
        ⟨2, [Value.int 9, Value.int 1, Value.time 1, Value.null, Value.bool true]⟩], 3⟩ : Table).rows.getD 0 dRow).isActive = false)
    ∧ ((⟨[⟨1, [Value.int 7, Value.int 100, Value.time 0, Value.time 3, Value.bool false]⟩,
          ⟨2, [Value.int 9, Value.int 1, Value.time 1, Value.null, Value.bool true]⟩], 3⟩ : Table).rows.getD 1 dRow).key
        ≠ ((⟨[⟨1, [Value.int 7, Value.int 100, Value.time 0, Value.null, Value.bool true]⟩], 2⟩ : Table).rows.getD 0 dRow).key :=
  have h := removed_key_expired_without_replacement 2 1 2 3 [[Value.int 9, Value.int 1]]
    ⟨[⟨1, [Value.int 7, Value.int 100, Value.time 0, Value.null, Value.bool true]⟩], 2⟩
    ⟨[⟨1, [Value.int 7, Value.int 100, Value.time 0, Value.time 3, Value.bool false]⟩,
      ⟨2, [Value.int 9, Value.int 1, Value.time 1, Value.null, Value.bool true]⟩], 3⟩
    0 (by decide) (by decide) (by decide) (by decide) (by decide) (by decide)
  ⟨h.1, h.2.1, h.2.2 1 (by decide) (by decide)⟩

/-! ## Active-row counting through the phases -/

lemma countP_active_expiring (nowD : Nat) (sks : List Int) (t0 : Table) (k : Value)
    (hsafe : ∀ r ∈ t0.rows, r.isActive = true → r.key = k → r.sk ∉ sks) :
    (expiring_scd_table_in_olap nowD sks t0).rows.countP (fun r => r.isActive && (r.key == k))
      = t0.rows.countP (fun r => r.isActive && (r.key == k)) := by
  show (t0.rows.map fun r => if r.sk ∈ sks then expireRow nowD r else r).countP
      (fun r => r.isActive && (r.key == k))
    = t0.rows.countP (fun r => r.isActive && (r.key == k))
  rw [List.countP_map]
  apply List.countP_congr
  intro r hr
  by_cases hmem : r.sk ∈ sks
  · have hfalse : ((fun r => r.isActive && (r.key == k)) ∘
        fun r => if r.sk ∈ sks then expireRow nowD r else r) r = false := by
      show ((if r.sk ∈ sks then expireRow nowD r else r).isActive
        && ((if r.sk ∈ sks then expireRow nowD r else r).key == k)) = false
      rw [if_pos hmem, expireRow_not_active]
      rfl
    rw [hfalse]
    constructor
    · intro h
      simp at h
    · intro hp
      rw [Bool.and_eq_true] at hp
      exact absurd hmem (hsafe r hr hp.1 (beq_iff_eq.mp hp.2))
  · have heq : ((fun r => r.isActive && (r.key == k)) ∘
        fun r => if r.sk ∈ sks then expireRow nowD r else r) r
        = (r.isActive && (r.key == k)) := by
      show ((if r.sk ∈ sks then expireRow nowD r else r).isActive
        && ((if r.sk ∈ sks then expireRow nowD r else r).key == k))
        = (r.isActive && (r.key == k))
      rw [if_neg hmem]
    rw [heq]

lemma countP_active_eq_read (t0 : Table) (k : Value) :
    t0.rows.countP (fun r => r.isActive && (r.key == k))
      = (read_scd_table_in_olap t0).countP (fun r => r.key == k) := by
  unfold read_scd_table_in_olap
  rw [List.countP_filter]
  apply List.countP_congr
  intro r hr
  rw [Bool.and_comm]

lemma countP_active_assignSks (s : Int) (ins : List Vals) (k : Value) :
    (assignSks s ins).countP (fun r => r.isActive && (r.key == k))
      = ins.countP (fun v => (v.getLastD Value.null == Value.bool true) && (keyOf v == k)) :=
  countP_assignSks s ins
    (fun v => (v.getLastD Value.null == Value.bool true) && (keyOf v == k))

/-! ## C1: exactly one active row per snapshot key after an error-free run -/

/-- C1: after a loader run that completes without error — on a well-formed
snapshot (m columns, m ≥ 1, distinct natural keys) against a table whose
active rows have distinct keys and whose rows have distinct surrogate keys —
every natural key of the candidate snapshot has exactly one active row in
the target table. -/
theorem exactly_one_active_after_ok_run (m now nowU nowD : Nat) (cand : List Vals)
    (t0 t' : Table)
    (hm : 1 ≤ m) (hw : ∀ r ∈ cand, r.length = m)
    (hkeys : (cand.map keyOf).Nodup)
    (hactkeys : ((read_scd_table_in_olap t0).map HistRow.key).Nodup)
    (hsks : (t0.rows.map HistRow.sk).Nodup)
    (hrun : load_scd m now nowU nowD cand t0 = ⟨t', true⟩) :
    ∀ k ∈ cand.map keyOf, countActive t' k = 1 := by
  have hok : (load_scd m now nowU nowD cand t0).ok = true := by rw [hrun]
  have hupd := run_ok_upd_nil m now nowU nowD cand t0 hw hok
  have h0 := load_scd_of_upd_nil m now nowU nowD cand t0 hw hupd
  rw [h0] at hrun
  injection hrun with hT hB
  subst hT
  intro k hk
  obtain ⟨c0, hc0, rfl⟩ := List.mem_map.mp hk
  have hcne : ∀ c ∈ cand, c ≠ [] := by
    intro c hc hnil
    have hlc := hw c hc
    rw [hnil] at hlc
    simp at hlc
    omega
  show (((expiring_scd_table_in_olap nowD
        ((deleted_rows (cand.map fun r => r ++ [Value.time now, Value.null, Value.bool true])
            (read_scd_table_in_olap t0)).map (·.sk)) t0).rows
      ++ assignSks t0.nextSk
          (rows_to_insert (cand.map fun r => r ++ [Value.time now, Value.null, Value.bool true])
            (read_scd_table_in_olap t0))).filter
        (fun r => r.isActive && (r.key == keyOf c0))).length = 1
  rw [List.filter_append, List.length_append, ← List.countP_eq_length_filter,
    ← List.countP_eq_length_filter]
  have hsafe : ∀ r ∈ t0.rows, r.isActive = true → r.key = keyOf c0 →
      r.sk ∉ (deleted_rows (cand.map fun r => r ++ [Value.time now, Value.null, Value.bool true])
        (read_scd_table_in_olap t0)).map (·.sk) := by
    intro r hr hra hrk hmem
    obtain ⟨rd, hrd, hrdsk⟩ := List.mem_map.mp hmem
    have hrdrows : rd ∈ t0.rows := (List.mem_filter.mp (mem_deleted_rows.mp hrd).1).1
    have hrdr : rd = r := List.inj_on_of_nodup_map hsks hrdrows hr hrdsk
    have hnomatch := (mem_deleted_rows.mp hrd).2
    have hl0 : c0 ++ [Value.time now, Value.null, Value.bool true]
        ∈ cand.map fun r => r ++ [Value.time now, Value.null, Value.bool true] :=
      List.mem_map_of_mem _ hc0
    have hcontra := hnomatch _ hl0
    rw [keyOf_append _ (hcne c0 hc0), hrdr, hrk] at hcontra
    exact hcontra rfl
  rw [countP_active_expiring nowD _ t0 (keyOf c0) hsafe]
  rw [countP_active_eq_read t0 (keyOf c0)]
  rw [countP_active_assignSks]
  by_cases hmatch : ∃ rx ∈ read_scd_table_in_olap t0, rx.key = keyOf c0
  · rw [countP_eq_one_of_nodup_map HistRow.key _ _ hactkeys hmatch]
    have h2 : (rows_to_insert (cand.map fun r => r ++ [Value.time now, Value.null, Value.bool true])
        (read_scd_table_in_olap t0)).countP
          (fun v => (v.getLastD Value.null == Value.bool true) && (keyOf v == keyOf c0)) = 0 := by
      rw [List.countP_eq_zero]
      intro v hv hq
      obtain ⟨-, hvnomatch⟩ := mem_rows_to_insert.mp hv
      rw [Bool.and_eq_true] at hq
      obtain ⟨rx, hrx, hrxk⟩ := hmatch
      exact hvnomatch rx hrx ((beq_iff_eq.mp hq.2).trans hrxk.symm)
    rw [h2]
  · have h1 : (read_scd_table_in_olap t0).countP (fun r => r.key == keyOf c0) = 0 := by
      rw [List.countP_eq_zero]
      intro rx hrx h
      exact hmatch ⟨rx, hrx, beq_iff_eq.mp h⟩
    rw [h1]
    have h2 : (rows_to_insert (cand.map fun r => r ++ [Value.time now, Value.null, Value.bool true])
        (read_scd_table_in_olap t0)).countP
          (fun v => (v.getLastD Value.null == Value.bool true) && (keyOf v == keyOf c0)) = 1 := by
      show ((cand.map fun r => r ++ [Value.time now, Value.null, Value.bool true]).filter
          (fun l => !((read_scd_table_in_olap t0).any (keyMatches l)))).countP
          (fun v => (v.getLastD Value.null == Value.bool true) && (keyOf v == keyOf c0)) = 1
      rw [List.countP_filter, List.countP_map]
      refine Eq.trans (List.countP_congr ?_)
        (countP_eq_one_of_nodup_map keyOf cand (keyOf c0) hkeys ⟨c0, hc0, rfl⟩)
      intro c hc
      by_cases hck : keyOf c = keyOf c0
      · have hany : (read_scd_table_in_olap t0).any
            (keyMatches (c ++ [Value.time now, Value.null, Value.bool true])) = false := by
          rw [List.any_eq_false]
          intro rx hrx
          unfold keyMatches
          rw [keyOf_append _ (hcne c hc), hck]
          intro hbeq
          exact hmatch ⟨rx, hrx, (beq_iff_eq.mp hbeq).symm⟩
        simp [Function.comp, getLastD_append_triple, keyOf_append _ (hcne c hc), hck, hany]
      · simp [Function.comp, getLastD_append_triple, keyOf_append _ (hcne c hc), hck]
    rw [h2]

/-- Witness for `exactly_one_active_after_ok_run` on a concrete first run. -/
theorem exactly_one_active_after_ok_run_witness :
    countActive ⟨[⟨1, [Value.int 1, Value.int 5, Value.time 0, Value.null, Value.bool true]⟩], 2⟩
      (Value.int 1) = 1 :=
  exactly_one_active_after_ok_run 2 0 0 0 [[Value.int 1, Value.int 5]] ⟨[], 1⟩
    ⟨[⟨1, [Value.int 1, Value.int 5, Value.time 0, Value.null, Value.bool true]⟩], 2⟩
    (by decide) (by decide) (by decide) (by decide) (by decide) (by decide)
    (Value.int 1) (by decide)

/-! ## C4: no-op idempotence of a second identical run -/

/-- C4 (counterexample): with a snapshot whose tracked attribute is null,
the first run succeeds, but the second run with the identical snapshot
classifies the key as changed (pandas `eq` treats null ≠ null), expires its
row — its active count drops to zero — and then aborts on the re-insert.
The second run therefore performs an expiration, contrary to the claim. -/
theorem second_run_expires_null_key_counterexample :
    (load_scd 2 0 0 0 [[Value.int 1, Value.null]] ⟨[], 1⟩).ok = true
    ∧ (load_scd 2 5 6 7 [[Value.int 1, Value.null]]
        (load_scd 2 0 0 0 [[Value.int 1, Value.null]] ⟨[], 1⟩).table).ok = false
    ∧ countActive (load_scd 2 5 6 7 [[Value.int 1, Value.null]]
        (load_scd 2 0 0 0 [[Value.int 1, Value.null]] ⟨[], 1⟩).table).table (Value.int 1) = 0
    ∧ (load_scd 2 5 6 7 [[Value.int 1, Value.null]]
        (load_scd 2 0 0 0 [[Value.int 1, Value.null]] ⟨[], 1⟩).table).table
      ≠ (load_scd 2 0 0 0 [[Value.int 1, Value.null]] ⟨[], 1⟩).table := by
  decide

/-- An active row of the table left by a run with an empty update set is
either one of the freshly appended rows or a still-active pre-existing row
whose surrogate key was not expired. -/
lemma mem_read_append_cases (d1 : Nat) (sks1 : List Int) (t0 : Table) (A : List HistRow)
    (nsk : Int) (hr : HistRow)
    (hmem : hr ∈ read_scd_table_in_olap
      ⟨(expiring_scd_table_in_olap d1 sks1 t0).rows ++ A, nsk⟩) :
    hr ∈ A ∨ (hr ∈ read_scd_table_in_olap t0 ∧ hr.sk ∉ sks1) := by
  unfold read_scd_table_in_olap at hmem
  rw [List.mem_filter] at hmem
  obtain ⟨hin, hact⟩ := hmem
  rcases List.mem_append.mp hin with hE | hA
  · right
    unfold expiring_scd_table_in_olap at hE
    dsimp only at hE
    obtain ⟨r, hrr, hgr⟩ := List.mem_map.mp hE
    by_cases hsk : r.sk ∈ sks1
    · rw [if_pos hsk] at hgr
      rw [← hgr] at hact
      rw [expireRow_not_active] at hact
      simp at hact
    · rw [if_neg hsk] at hgr
      subst hgr
      exact ⟨List.mem_filter.mpr ⟨hrr, hact⟩, hsk⟩
  · left
    exact hA

/-- A run against a state whose active rows cover every snapshot key and
agree with the snapshot's rows under the pandas `eq` comparison is a no-op:
it succeeds and leaves the table untouched. -/
lemma load_scd_noop (m now2 u2 d2 : Nat) (cand : List Vals) (t1 : Table)
    (hm : 1 ≤ m) (hw : ∀ r ∈ cand, r.length = m)
    (hkeys : (cand.map keyOf).Nodup)
    (hcover : ∀ c ∈ cand, ∃ hr ∈ read_scd_table_in_olap t1, hr.key = keyOf c)
    (hagree : ∀ hr ∈ read_scd_table_in_olap t1, ∃ c ∈ cand, keyOf c = hr.key ∧
        ∀ i, 1 ≤ i → i < m → peq (c.getD i Value.null) (hr.vals.getD i Value.null) = true) :
    load_scd m now2 u2 d2 cand t1 = ⟨t1, true⟩ := by
  have hcne : ∀ c ∈ cand, c ≠ [] := by
    intro c hc hnil
    have hlc := hw c hc
    rw [hnil] at hlc
    simp at hlc
    omega
  have hupd2 : rows_to_update (m + 3)
      (cand.map fun r => r ++ [Value.time now2, Value.null, Value.bool true])
      (read_scd_table_in_olap t1) = [] := by
    unfold rows_to_update
    rw [List.filter_eq_nil_iff]
    intro u hu
    obtain ⟨hsnap, hold, hkeq⟩ := mem_merged_both.mp hu
    obtain ⟨c1, hc1, hsnapeq⟩ := List.mem_map.mp hsnap
    obtain ⟨c2, hc2, hkc2, hpeq⟩ := hagree u.old hold
    have hkey12 : keyOf c1 = keyOf c2 := by
      have h := hkeq
      rw [← hsnapeq, keyOf_append _ (hcne c1 hc1)] at h
      exact h.trans hkc2.symm
    have hc12 : c1 = c2 := List.inj_on_of_nodup_map hkeys hc1 hc2 hkey12
    intro hch
    obtain ⟨i, hi, hb⟩ := List.any_eq_true.mp hch
    rw [mem_comparePositions] at hi
    have hsv : u.snap.getD i Value.null = c1.getD i Value.null := by
      rw [← hsnapeq]
      exact getD_append_left _ _ _ _ (by rw [hw c1 hc1]; omega)
    rw [hsv, hc12] at hb
    rw [hpeq i hi.1 (by omega)] at hb
    simp at hb
  have hins2 : rows_to_insert
      (cand.map fun r => r ++ [Value.time now2, Value.null, Value.bool true])
      (read_scd_table_in_olap t1) = [] := by
    unfold rows_to_insert
    rw [List.filter_eq_nil_iff]
    intro l hl
    obtain ⟨c1, hc1, rfl⟩ := List.mem_map.mp hl
    obtain ⟨hr, hhr, hkey⟩ := hcover c1 hc1
    intro hnot
    have hany : (read_scd_table_in_olap t1).any
        (keyMatches (c1 ++ [Value.time now2, Value.null, Value.bool true])) = true := by
      rw [List.any_eq_true]
      refine ⟨hr, hhr, ?_⟩
      unfold keyMatches
      rw [keyOf_append _ (hcne c1 hc1), hkey]
      simp
    rw [hany] at hnot
    simp at hnot
  have hdel2 : deleted_rows
      (cand.map fun r => r ++ [Value.time now2, Value.null, Value.bool true])
      (read_scd_table_in_olap t1) = [] := by
    unfold deleted_rows
    rw [List.filter_eq_nil_iff]
    intro rx hrx
    obtain ⟨c2, hc2, hkc2, -⟩ := hagree rx hrx
    intro hnot
    have hany : (cand.map fun r => r ++ [Value.time now2, Value.null, Value.bool true]).any
        (fun l => keyMatches l rx) = true := by
      rw [List.any_eq_true]
      refine ⟨c2 ++ [Value.time now2, Value.null, Value.bool true],
        List.mem_map_of_mem _ hc2, ?_⟩
      unfold keyMatches
      rw [keyOf_append _ (hcne c2 hc2), hkc2]
      simp
    rw [hany] at hnot
    simp at hnot
  have h2 := load_scd_of_upd_nil m now2 u2 d2 cand t1 hw hupd2
  rw [h2, hdel2, hins2]
  simp [expiring_nil, assignSks]

/-- C4 (amended): after any error-free run of the engine — from an arbitrary
starting table with distinct surrogate keys — running it again with the
identical well-formed snapshot (distinct natural keys, all tracked
attributes non-null) produces no new rows and no expirations: the second
run succeeds and leaves the table exactly as the first run left it.  (With
a null tracked attribute the second run expires the key's row and aborts —
see the counterexample.) -/
theorem second_run_noop_of_nonnull (m now1 u1 d1 now2 u2 d2 : Nat) (cand : List Vals)
    (t0 t1 : Table)
    (hm : 1 ≤ m) (hw : ∀ r ∈ cand, r.length = m)
    (hkeys : (cand.map keyOf).Nodup)
    (hsks : (t0.rows.map HistRow.sk).Nodup)
    (hnn : ∀ r ∈ cand, ∀ i, 1 ≤ i → i < m → r.getD i Value.null ≠ Value.null)
    (hrun1 : load_scd m now1 u1 d1 cand t0 = ⟨t1, true⟩) :
    load_scd m now2 u2 d2 cand t1 = ⟨t1, true⟩ := by
  have hcne : ∀ c ∈ cand, c ≠ [] := by
    intro c hc hnil
    have hlc := hw c hc
    rw [hnil] at hlc
    simp at hlc
    omega
  have hok1 : (load_scd m now1 u1 d1 cand t0).ok = true := by rw [hrun1]
  have hupd1 := run_ok_upd_nil m now1 u1 d1 cand t0 hw hok1
  have h0 := load_scd_of_upd_nil m now1 u1 d1 cand t0 hw hupd1
  rw [h0] at hrun1
  injection hrun1 with hT hB
  subst hT
  have hnotchanged : ∀ u ∈ merged_both
      (cand.map fun r => r ++ [Value.time now1, Value.null, Value.bool true])
      (read_scd_table_in_olap t0), changedRow (m + 3) u = false := by
    intro u hu
    have h := hupd1
    unfold rows_to_update at h
    rw [List.filter_eq_nil_iff] at h
    have hnc := h u hu
    cases hcb : changedRow (m + 3) u with
    | false => rfl
    | true => exact absurd hcb hnc
  apply load_scd_noop m now2 u2 d2 cand _ hm hw hkeys
  · intro c hc
    by_cases hmatch : ∃ r ∈ read_scd_table_in_olap t0, r.key = keyOf c
    · obtain ⟨r, hr0, hrk⟩ := hmatch
      have hrrows : r ∈ t0.rows := (List.mem_filter.mp hr0).1
      have hract : r.isActive = true := (List.mem_filter.mp hr0).2
      have hrsk : r.sk ∉ (deleted_rows
          (cand.map fun rr => rr ++ [Value.time now1, Value.null, Value.bool true])
          (read_scd_table_in_olap t0)).map (·.sk) := by
        intro hin
        obtain ⟨rd, hrd, hrdsk⟩ := List.mem_map.mp hin
        have hrdrows : rd ∈ t0.rows := (List.mem_filter.mp (mem_deleted_rows.mp hrd).1).1
        have hrdr : rd = r := List.inj_on_of_nodup_map hsks hrdrows hrrows hrdsk
        have hnom := (mem_deleted_rows.mp hrd).2
        have hcdf : c ++ [Value.time now1, Value.null, Value.bool true]
            ∈ cand.map fun rr => rr ++ [Value.time now1, Value.null, Value.bool true] :=
          List.mem_map_of_mem _ hc
        have hne := hnom _ hcdf
        rw [keyOf_append _ (hcne c hc), hrdr] at hne
        exact hne hrk.symm
      refine ⟨r, ?_, hrk⟩
      apply List.mem_filter.mpr
      refine ⟨?_, hract⟩
      apply List.mem_append_left
      show r ∈ t0.rows.map fun rr => if rr.sk ∈ (deleted_rows
          (cand.map fun rr => rr ++ [Value.time now1, Value.null, Value.bool true])
          (read_scd_table_in_olap t0)).map (·.sk) then expireRow d1 rr else rr
      refine List.mem_map.mpr ⟨r, hrrows, ?_⟩
      rw [if_neg hrsk]
    · have hcins : c ++ [Value.time now1, Value.null, Value.bool true] ∈ rows_to_insert
          (cand.map fun rr => rr ++ [Value.time now1, Value.null, Value.bool true])
          (read_scd_table_in_olap t0) := by
        refine mem_rows_to_insert.mpr ⟨List.mem_map_of_mem _ hc, ?_⟩
        intro r hr heq
        rw [keyOf_append _ (hcne c hc)] at heq
        exact hmatch ⟨r, hr, heq.symm⟩
      obtain ⟨hr, hmemA, hvals⟩ := exists_mem_assignSks t0.nextSk hcins
      refine ⟨hr, ?_, ?_⟩
      · apply List.mem_filter.mpr
        refine ⟨List.mem_append_right _ hmemA, ?_⟩
        show (hr.vals.getLastD Value.null == Value.bool true) = true
        rw [hvals, getLastD_append_triple]
        rfl
      · show keyOf hr.vals = keyOf c
        rw [hvals]
        exact keyOf_append _ (hcne c hc)
  · intro hr hmem
    rcases mem_read_append_cases d1 _ t0 _ _ hr hmem with hA | ⟨hex0, hskn⟩
    · have hvals := vals_mem_of_mem_assignSks hA
      have hdf := (mem_rows_to_insert.mp hvals).1
      obtain ⟨c, hc, hce⟩ := List.mem_map.mp hdf
      refine ⟨c, hc, ?_, ?_⟩
      · show keyOf c = keyOf hr.vals
        rw [← hce]
        exact (keyOf_append _ (hcne c hc)).symm
      · intro i h1 h2
        show peq (c.getD i Value.null) (hr.vals.getD i Value.null) = true
        rw [← hce, getD_append_left _ _ _ _ (by rw [hw c hc]; omega)]
        exact peq_self (hnn c hc i h1 h2)
    · have hnotdel : hr ∉ deleted_rows
          (cand.map fun rr => rr ++ [Value.time now1, Value.null, Value.bool true])
          (read_scd_table_in_olap t0) :=
        fun hin => hskn (List.mem_map_of_mem _ hin)
      have hmatched : ∃ l ∈ cand.map fun rr => rr ++ [Value.time now1, Value.null, Value.bool true],
          keyOf l = hr.key := by
        by_contra hno
        push_neg at hno
        exact hnotdel (mem_deleted_rows.mpr ⟨hex0, hno⟩)
      obtain ⟨l, hl, hlk⟩ := hmatched
      obtain ⟨c, hc, hce⟩ := List.mem_map.mp hl
      have hpair : UpdRow.mk l hr ∈ merged_both
          (cand.map fun rr => rr ++ [Value.time now1, Value.null, Value.bool true])
          (read_scd_table_in_olap t0) :=
        mem_merged_both.mpr ⟨hl, hex0, hlk⟩
      have hchf := hnotchanged _ hpair
      unfold changedRow at hchf
      refine ⟨c, hc, ?_, ?_⟩
      · have hkl : keyOf l = keyOf c := by
          rw [← hce]
          exact keyOf_append _ (hcne c hc)
        exact hkl.symm.trans hlk
      · intro i h1 h2
        have hib : i ∈ comparePositions (m + 3) := mem_comparePositions.mpr ⟨h1, by omega⟩
        have hcontrib := (List.any_eq_false.mp hchf) i hib
        have hld : l.getD i Value.null = c.getD i Value.null := by
          rw [← hce]
          exact getD_append_left _ _ _ _ (by rw [hw c hc]; omega)
        cases hpq : peq (l.getD i Value.null) (hr.vals.getD i Value.null) with
        | true =>
            rw [← hld]
            exact hpq
        | false =>
            exfalso
            apply hcontrib
            rw [hpq]
            rfl

/-- Witness for `second_run_noop_of_nonnull`: a first run over a non-empty
table whose single active key is unchanged succeeds, and the second
identical run leaves the table untouched. -/
theorem second_run_noop_of_nonnull_witness :
    load_scd 2 5 6 7 [[Value.int 7, Value.int 100]]
        ⟨[⟨1, [Value.int 7, Value.int 100, Value.time 0, Value.null, Value.bool true]⟩], 2⟩
      = ⟨⟨[⟨1, [Value.int 7, Value.int 100, Value.time 0, Value.null, Value.bool true]⟩], 2⟩,
        true⟩ :=
  second_run_noop_of_nonnull 2 1 2 3 5 6 7 [[Value.int 7, Value.int 100]]
    ⟨[⟨1, [Value.int 7, Value.int 100, Value.time 0, Value.null, Value.bool true]⟩], 2⟩
    ⟨[⟨1, [Value.int 7, Value.int 100, Value.time 0, Value.null, Value.bool true]⟩], 2⟩
    (by decide) (by decide) (by decide) (by decide) (by decide) (by decide)
